import Mathlib

/-!
Verification of the frame-streaming core of `video_player.py` (movUtil).

The development shallowly embeds the parts of the source that the
properties below are about: the blend compositor
(`OverlayManager.blend_frames`), frame stepping and sync updates on a
viewer (`VideoPlayerWindow.next_frame` / `prev_frame` / `set_sync_frame`),
the loading-finished handlers, sync-group membership (`SyncGroup`),
display normalization (`VideoPlayerWindow.display_frame`), and the
loader stop protocol (`VideoLoaderThread.stop` for both the video and
the TIFF backing variants, as small interleaving transition systems).

Pixel arithmetic: the source operates on numpy `uint8` arrays with
float64 intermediates.  The embedding uses ℚ for the float
intermediates (every constant appearing in the code and in the concrete
properties below is exactly representable, and the truncated results
are far from the error margin of float64).  It models the two places
where the `uint8` representation matters: `astype(np.uint8)` truncates
toward zero, and `uint8` subtraction wraps modulo 256.
-/

namespace MovUtil

/-- Conversion of a float value to `uint8` as numpy `astype(np.uint8)`
performs it on the values this code produces: truncation toward zero.
Every branch of `blend_frames` and of the display normalization feeds a
nonnegative value (opacity is clamped to [0,1] by `set_opacity` and the
other branches clip), where truncation toward zero is the floor. -/
def toU8 (q : ℚ) : ℕ := (if 0 ≤ q then ⌊q⌋ else -⌊-q⌋).toNat

/-- `np.clip(x, 0, 255)` on a scalar. -/
def clip255 (q : ℚ) : ℚ := max 0 (min 255 q)

/-- Subtraction of two `uint8` values as numpy computes it on `uint8`
arrays: wraparound modulo 256.  `np.abs` on the unsigned result is the
identity, so the `diff` of the Difference branch is exactly this. -/
def u8sub (m o : ℕ) : ℕ := (((m : ℤ) - (o : ℤ)) % 256).toNat

/-- Per-channel arithmetic of `OverlayManager.blend_frames`
(`video_player.py` lines 781-809), one branch per blend-mode string,
any other string leaving the channel unchanged:
Normal `(1-α)·m + α·o` (no clip, `astype`);
Add `clip(m + o·α)`;
Multiply `clip(m · (1-α+α·o/255))`;
Screen `clip(255 - (255-m)·(1-α+α·(255-o)/255))` with the inversions
computed on `uint8`;
Difference `m·(1-α) + diff·α` (no clip) where `diff` is the wrapped
`uint8` subtraction `m - o`. -/
def blendChannel (blend_mode : String) (opacity : ℚ) (m o : ℕ) : ℕ :=
  if blend_mode = "Normal" then
    toU8 ((1 - opacity) * (m : ℚ) + opacity * (o : ℚ))
  else if blend_mode = "Add" then
    toU8 (clip255 ((m : ℚ) + (o : ℚ) * opacity))
  else if blend_mode = "Multiply" then
    toU8 (clip255 ((m : ℚ) * (1 - opacity + opacity * (o : ℚ) / 255)))
  else if blend_mode = "Screen" then
    toU8 (clip255 (255 - (u8sub 255 m : ℚ) * (1 - opacity + opacity * (u8sub 255 o : ℚ) / 255)))
  else if blend_mode = "Difference" then
    toU8 ((m : ℚ) * (1 - opacity) + (u8sub m o : ℚ) * opacity)
  else m

/-- A frame: height, width, and per-pixel channel value (the per-channel
formulas apply pointwise to every channel, so one channel plane
represents the arithmetic faithfully). -/
@[ext]
structure Frame where
  h : ℕ
  w : ℕ
  data : ℕ → ℕ → ℕ

/-- `OverlayManager.blend_frames` (`video_player.py` lines 764-811):
`result = main_frame.copy()`; the overlap rectangle is the element-wise
minimum of the two dimension pairs, top-left aligned; only pixels inside
it are replaced by the blended value, every other pixel keeps the main
frame's value; the result has the main frame's dimensions. -/
def blend_frames (main_frame overlay_frame : Frame) (blend_mode : String)
    (opacity : ℚ) : Frame :=
  let visible_h := min main_frame.h overlay_frame.h
  let visible_w := min main_frame.w overlay_frame.w
  { h := main_frame.h
    w := main_frame.w
    data := fun r c =>
      if r < visible_h ∧ c < visible_w then
        blendChannel blend_mode opacity (main_frame.data r c) (overlay_frame.data r c)
      else
        main_frame.data r c }

/-- The 1x1 main frame of the concrete blend property, value 100. -/
def mainPx : Frame := ⟨1, 1, fun _ _ => 100⟩

/-- The 1x1 overlay frame of the concrete blend property, value 200. -/
def overPx : Frame := ⟨1, 1, fun _ _ => 200⟩

/-- A 10x10 main frame of constant value 100. -/
def main10 : Frame := ⟨10, 10, fun _ _ => 100⟩

/-- A 4x4 overlay frame of constant value 200. -/
def over4 : Frame := ⟨4, 4, fun _ _ => 200⟩

/-- Evaluation helper: `toU8` of a value lying in `[n, n+1)`. -/
theorem toU8_eq (q : ℚ) (n : ℕ) (h1 : (n : ℚ) ≤ q) (h2 : q < (n : ℚ) + 1) :
    toU8 q = n := by
  have h0 : 0 ≤ q := le_trans (by positivity) h1
  unfold toU8
  rw [if_pos h0]
  have hf : ⌊q⌋ = (n : ℤ) := by
    rw [Int.floor_eq_iff]
    constructor
    · exact_mod_cast h1
    · push_cast
      exact h2
  rw [hf]
  exact Int.toNat_natCast n

/-- Evaluation helper: `clip255` is the identity on `[0, 255]`. -/
theorem clip255_eq (q : ℚ) (h0 : 0 ≤ q) (h255 : q ≤ 255) : clip255 q = q := by
  unfold clip255
  rw [min_eq_right h255, max_eq_right h0]

theorem blendChannel_normal (opacity : ℚ) (m o : ℕ) :
    blendChannel "Normal" opacity m o =
      toU8 ((1 - opacity) * (m : ℚ) + opacity * (o : ℚ)) := by
  unfold blendChannel
  rw [if_pos rfl]

theorem blendChannel_add (opacity : ℚ) (m o : ℕ) :
    blendChannel "Add" opacity m o =
      toU8 (clip255 ((m : ℚ) + (o : ℚ) * opacity)) := by
  unfold blendChannel
  rw [if_neg (by decide), if_pos rfl]

theorem blendChannel_multiply (opacity : ℚ) (m o : ℕ) :
    blendChannel "Multiply" opacity m o =
      toU8 (clip255 ((m : ℚ) * (1 - opacity + opacity * (o : ℚ) / 255))) := by
  unfold blendChannel
  rw [if_neg (by decide), if_neg (by decide), if_pos rfl]

theorem blendChannel_screen (opacity : ℚ) (m o : ℕ) :
    blendChannel "Screen" opacity m o =
      toU8 (clip255 (255 - (u8sub 255 m : ℚ) *
        (1 - opacity + opacity * (u8sub 255 o : ℚ) / 255))) := by
  unfold blendChannel
  rw [if_neg (by decide), if_neg (by decide), if_neg (by decide), if_pos rfl]

theorem blendChannel_difference (opacity : ℚ) (m o : ℕ) :
    blendChannel "Difference" opacity m o =
      toU8 ((m : ℚ) * (1 - opacity) + (u8sub m o : ℚ) * opacity) := by
  unfold blendChannel
  rw [if_neg (by decide), if_neg (by decide), if_neg (by decide), if_neg (by decide),
    if_pos rfl]

theorem blend_px_normal : (blend_frames mainPx overPx "Normal" (1/2)).data 0 0 = 150 := by
  show blendChannel "Normal" (1/2) 100 200 = 150
  rw [blendChannel_normal]
  exact toU8_eq _ 150 (by norm_num) (by norm_num)

theorem blend_px_add : (blend_frames mainPx overPx "Add" (1/2)).data 0 0 = 200 := by
  show blendChannel "Add" (1/2) 100 200 = 200
  rw [blendChannel_add, clip255_eq _ (by norm_num) (by norm_num)]
  exact toU8_eq _ 200 (by norm_num) (by norm_num)

theorem blend_px_multiply : (blend_frames mainPx overPx "Multiply" (1/2)).data 0 0 = 89 := by
  show blendChannel "Multiply" (1/2) 100 200 = 89
  rw [blendChannel_multiply, clip255_eq _ (by norm_num) (by norm_num)]
  exact toU8_eq _ 89 (by norm_num) (by norm_num)

theorem blend_px_screen : (blend_frames mainPx overPx "Screen" (1/2)).data 0 0 = 160 := by
  show blendChannel "Screen" (1/2) 100 200 = 160
  rw [blendChannel_screen, show u8sub 255 100 = 155 from rfl,
    show u8sub 255 200 = 55 from rfl, clip255_eq _ (by norm_num) (by norm_num)]
  exact toU8_eq _ 160 (by norm_num) (by norm_num)

theorem blend_px_difference :
    (blend_frames mainPx overPx "Difference" (1/2)).data 0 0 = 128 := by
  show blendChannel "Difference" (1/2) 100 200 = 128
  rw [blendChannel_difference, show u8sub 100 200 = 156 from rfl]
  exact toU8_eq _ 128 (by norm_num) (by norm_num)

/-- C1 counterexample: on the 1x1 frames main = 100, overlay = 200 with
opacity 0.5, the code yields 89 for Multiply (not ≈128), 160 for Screen
(not ≈216: the exact value 8200/51 ≈ 160.78 is truncated, not rounded),
and 128 for Difference (not 100: the `uint8` subtraction 100-200 wraps
to 156 before `np.abs`), so three of the five values the claim states
are wrong. -/
theorem blend_concrete_counterexample :
    (blend_frames mainPx overPx "Multiply" (1/2)).data 0 0 = 89 ∧ (89 : ℕ) ≠ 128 ∧
    (blend_frames mainPx overPx "Screen" (1/2)).data 0 0 = 160 ∧ (160 : ℕ) ≠ 216 ∧
    (blend_frames mainPx overPx "Difference" (1/2)).data 0 0 = 128 ∧ (128 : ℕ) ≠ 100 :=
  ⟨blend_px_multiply, by decide, blend_px_screen, by decide, blend_px_difference, by decide⟩

/-- C1 (amended): on the 1x1 frames main = 100, overlay = 200 with
opacity 0.5, `blend_frames` yields 150 for Normal, 200 for Add, 89 for
Multiply, 160 for Screen and 128 for Difference; outputs are clamped
where the code clips and truncated (not rounded) by `astype(np.uint8)`,
and Difference computes `main - overlay` with `uint8` wraparound before
`np.abs`. -/
theorem blend_concrete_values :
    (blend_frames mainPx overPx "Normal" (1/2)).data 0 0 = 150 ∧
    (blend_frames mainPx overPx "Add" (1/2)).data 0 0 = 200 ∧
    (blend_frames mainPx overPx "Multiply" (1/2)).data 0 0 = 89 ∧
    (blend_frames mainPx overPx "Screen" (1/2)).data 0 0 = 160 ∧
    (blend_frames mainPx overPx "Difference" (1/2)).data 0 0 = 128 :=
  ⟨blend_px_normal, blend_px_add, blend_px_multiply, blend_px_screen, blend_px_difference⟩

/-- C8: blending a strictly smaller overlay onto a larger main frame
only touches the top-left rectangle of the overlay's dimensions (the
element-wise minimum of the two dimension pairs); every pixel at a row
or column index at or beyond the overlay's size keeps the main frame's
value, for every blend mode and every opacity, and the result keeps the
main frame's dimensions. -/
theorem blend_overlap_clamp (main_frame overlay_frame : Frame) (blend_mode : String)
    (opacity : ℚ) (r c : ℕ)
    (h1 : overlay_frame.h < main_frame.h) (h2 : overlay_frame.w < main_frame.w)
    (h3 : overlay_frame.h ≤ r ∨ overlay_frame.w ≤ c) :
    (blend_frames main_frame overlay_frame blend_mode opacity).data r c =
      main_frame.data r c ∧
    (blend_frames main_frame overlay_frame blend_mode opacity).h = main_frame.h ∧
    (blend_frames main_frame overlay_frame blend_mode opacity).w = main_frame.w := by
  have hcond : ¬(r < min main_frame.h overlay_frame.h ∧
      c < min main_frame.w overlay_frame.w) := by
    rcases h3 with h3 | h3
    · rintro ⟨hr, -⟩
      have := lt_of_lt_of_le hr (min_le_right main_frame.h overlay_frame.h)
      omega
    · rintro ⟨-, hc⟩
      have := lt_of_lt_of_le hc (min_le_right main_frame.w overlay_frame.w)
      omega
  refine ⟨?_, rfl, rfl⟩
  show (if r < min main_frame.h overlay_frame.h ∧ c < min main_frame.w overlay_frame.w then
      blendChannel blend_mode opacity (main_frame.data r c) (overlay_frame.data r c)
    else main_frame.data r c) = main_frame.data r c
  rw [if_neg hcond]

/-- C8 witness: main 10x10, overlay 4x4, Normal at opacity 0.5: the
pixel at row 4, column 0 is outside the 4x4 overlap and keeps the main
frame's value. -/
theorem blend_overlap_clamp_witness :
    over4.h < main10.h ∧ over4.w < main10.w ∧ over4.h ≤ 4 ∧
    (blend_frames main10 over4 "Normal" (1/2)).data 4 0 = main10.data 4 0 ∧
    (blend_frames main10 over4 "Normal" (1/2)).h = main10.h ∧
    (blend_frames main10 over4 "Normal" (1/2)).w = main10.w :=
  ⟨by decide, by decide, by decide,
    blend_overlap_clamp main10 over4 "Normal" (1/2) 4 0 (by decide) (by decide)
      (Or.inl (by decide))⟩

/-- C10: a blend-mode string other than the five recognized ones makes
`blend_frames` return a frame equal to the main frame (the per-channel
dispatch falls through every branch), and the main input is never
mutated: the code builds the result on `main_frame.copy()` and only
writes to the copy, which the embedding reflects by `blend_frames`
being a pure function of its inputs. -/
theorem blend_unknown_mode_identity (main_frame overlay_frame : Frame)
    (blend_mode : String) (opacity : ℚ)
    (h : blend_mode ≠ "Normal" ∧ blend_mode ≠ "Add" ∧ blend_mode ≠ "Multiply" ∧
      blend_mode ≠ "Screen" ∧ blend_mode ≠ "Difference") :
    blend_frames main_frame overlay_frame blend_mode opacity = main_frame := by
  obtain ⟨hn, ha, hm, hs, hd⟩ := h
  cases main_frame with
  | mk mh mw md =>
    show Frame.mk mh mw (fun r c =>
        if r < min mh overlay_frame.h ∧ c < min mw overlay_frame.w then
          blendChannel blend_mode opacity (md r c) (overlay_frame.data r c)
        else md r c) = Frame.mk mh mw md
    congr 1
    funext r c
    split
    · unfold blendChannel
      rw [if_neg hn, if_neg ha, if_neg hm, if_neg hs, if_neg hd]
    · rfl

/-- C10 witness: the unrecognized mode string "Overlay" acts as the
identity on the concrete 1x1 frames. -/
theorem blend_unknown_mode_identity_witness :
    ("Overlay" ≠ "Normal" ∧ "Overlay" ≠ "Add" ∧ "Overlay" ≠ "Multiply" ∧
      "Overlay" ≠ "Screen" ∧ "Overlay" ≠ "Difference") ∧
    blend_frames mainPx overPx "Overlay" (1/2) = mainPx :=
  ⟨by decide, blend_unknown_mode_identity mainPx overPx "Overlay" (1/2) (by decide)⟩

/-- The viewer state of `VideoPlayerWindow` that frame stepping and sync
updates read and write: whether a loader thread exists, the current
frame index, the total frame count, and the playing flag. -/
structure Player where
  hasLoader : Bool
  current_frame_index : ℕ
  total_frames : ℕ
  is_playing : Bool
deriving DecidableEq

/-- `VideoPlayerWindow._seek_to_frame` (lines 564-584) as it affects the
viewer state: the old loader is stopped, a fresh loader is started at
the requested index, and `current_frame_index` is set to it. -/
def seek_to_frame (v : Player) (frame_index : ℕ) : Player :=
  { v with hasLoader := true, current_frame_index := frame_index }

/-- `VideoPlayerWindow.next_frame` (lines 498-517): without a loader it
returns immediately; otherwise it pauses, computes `current + 1`
wrapping to 0 when that reaches `total_frames`, seeks there, and
resumes if it was playing (so `is_playing` is restored).  The second
component is the seek target, `none` when no seek was performed. -/
def next_frame (v : Player) : Player × Option ℕ :=
  if v.hasLoader = false then (v, none)
  else
    let nxt := if v.total_frames ≤ v.current_frame_index + 1 then 0
      else v.current_frame_index + 1
    (seek_to_frame v nxt, some nxt)

/-- `VideoPlayerWindow.prev_frame` (lines 519-538): the guard returns
immediately when there is no loader or `current_frame_index <= 0`, so
the target is always `current - 1`; the code's wrap branch
(`if prev_frame_index < 0`) is unreachable under the guard and is
therefore absent here. -/
def prev_frame (v : Player) : Player × Option ℕ :=
  if v.hasLoader = false ∨ v.current_frame_index = 0 then (v, none)
  else (seek_to_frame v (v.current_frame_index - 1), some (v.current_frame_index - 1))

/-- `VideoPlayerWindow.set_sync_frame` (lines 632-647): the follower
ignores the update when it has no loader or is already at the pushed
index; otherwise it pauses, seeks, and resumes only if it was playing
and the master is playing (`masterPlaying` stands for
`sync_group.master.is_playing`).  The second component is the seek
target, `none` when no seek was performed. -/
def set_sync_frame (v : Player) (frame_index : ℕ) (masterPlaying : Bool) :
    Player × Option ℕ :=
  if v.hasLoader = false ∨ frame_index = v.current_frame_index then (v, none)
  else
    ({ seek_to_frame v frame_index with is_playing := v.is_playing && masterPlaying },
      some frame_index)

/-- A playing viewer stuck at frame 0 of a 5-frame file. -/
def stuckPlayer : Player := ⟨true, 0, 5, true⟩

/-- C2 counterexample: previous-frame stepping from index 0 of a loaded
5-frame viewer does not wrap to index 4 = N-1; the guard
`current_frame_index <= 0` returns before any seek, leaving the state
unchanged. -/
theorem prev_frame_no_wrap_counterexample :
    prev_frame stuckPlayer = (stuckPlayer, none) ∧
    (prev_frame stuckPlayer).2 ≠ some (stuckPlayer.total_frames - 1) ∧
    (prev_frame stuckPlayer).1.current_frame_index = 0 := by
  refine ⟨rfl, ?_, rfl⟩
  decide

/-- C2 (amended): next-frame stepping from the last index N-1 seeks to
index 0 with `is_playing` restored; previous-frame stepping from index
0 is a no-op (the guard returns early, so there is no wrap-around at
the lower end); previous-frame stepping from any index k >= 1 seeks to
k-1 with `is_playing` restored. -/
theorem frame_step_wraparound :
    (∀ v : Player, v.hasLoader = true → v.current_frame_index + 1 = v.total_frames →
      next_frame v = (seek_to_frame v 0, some 0) ∧
        (next_frame v).1.is_playing = v.is_playing) ∧
    (∀ v : Player, v.current_frame_index = 0 → prev_frame v = (v, none)) ∧
    (∀ v : Player, v.hasLoader = true → v.current_frame_index ≠ 0 →
      prev_frame v = (seek_to_frame v (v.current_frame_index - 1),
        some (v.current_frame_index - 1)) ∧
        (prev_frame v).1.is_playing = v.is_playing) := by
  refine ⟨fun v hl hw => ?_, fun v h0 => ?_, fun v hl h0 => ?_⟩
  · unfold next_frame
    rw [if_neg (by simp [hl]), if_pos (by omega)]
    exact ⟨rfl, rfl⟩
  · unfold prev_frame
    rw [if_pos (Or.inr h0)]
  · have hg : ¬(v.hasLoader = false ∨ v.current_frame_index = 0) := by
      rintro (hc | hc)
      · simp [hl] at hc
      · exact h0 hc
    unfold prev_frame
    rw [if_neg hg]
    exact ⟨rfl, rfl⟩

/-- C2 witness: a playing viewer with 5 frames at index 4 steps forward
to index 0, and at index 3 steps back to index 2, keeping the playing
flag. -/
theorem frame_step_wraparound_witness :
    (next_frame ⟨true, 4, 5, true⟩ = (seek_to_frame ⟨true, 4, 5, true⟩ 0, some 0) ∧
      (next_frame ⟨true, 4, 5, true⟩).1.is_playing = true) ∧
    prev_frame ⟨true, 0, 5, true⟩ = (⟨true, 0, 5, true⟩, none) ∧
    (prev_frame ⟨true, 3, 5, true⟩ =
        (seek_to_frame ⟨true, 3, 5, true⟩ 2, some 2) ∧
      (prev_frame ⟨true, 3, 5, true⟩).1.is_playing = true) :=
  ⟨frame_step_wraparound.1 ⟨true, 4, 5, true⟩ rfl rfl,
    frame_step_wraparound.2.1 ⟨true, 0, 5, true⟩ rfl,
    frame_step_wraparound.2.2 ⟨true, 3, 5, true⟩ rfl (by decide)⟩

/-- C7: pushing the master's frame index to a follower that is already
at that index is a no-op: the guard
`frame_index == self.current_frame_index` returns before any seek, so
no seek target is produced and the follower's state is returned
unchanged, whatever the master's playing state. -/
theorem set_sync_frame_idempotent (v : Player) (masterPlaying : Bool) :
    set_sync_frame v v.current_frame_index masterPlaying = (v, none) := by
  unfold set_sync_frame
  rw [if_pos (Or.inr rfl)]

/-- The widget state that the two loading-finished handlers of
`VideoPlayerWindow` write: total frames, fps, the slider's value and
maximum, and the two frame-number labels. -/
structure PlayerUi where
  total_frames : ℕ
  fps : ℕ
  slider_value : ℕ
  slider_max : ℕ
  current_display : ℕ
  total_display : ℕ

/-- `VideoPlayerWindow.on_loading_finished` (lines 370-383): stores the
totals, sets the slider maximum to `total_frames - 1`, resets the
slider value to 0 and the current-frame label to 0.  This handler is
defined in the source but never connected to any loader's signal. -/
def on_loading_finished (s : PlayerUi) (tf f : ℕ) : PlayerUi :=
  { s with
    total_frames := tf
    fps := f
    slider_max := tf - 1
    slider_value := 0
    total_display := tf - 1
    current_display := 0 }

/-- `VideoPlayerWindow._on_loading_finished_preserve_position`
(lines 606-617): stores the totals and the slider maximum and the
total-frames label, leaving the slider value and the current-frame
label untouched. -/
def on_loading_finished_preserve_position (s : PlayerUi) (tf f : ℕ) : PlayerUi :=
  { s with total_frames := tf, fps := f, slider_max := tf - 1, total_display := tf - 1 }

/-- The handler `load_video` (line 363) connects to the loader's
loading-finished signal on a first open: it is
`_on_loading_finished_preserve_position`, not `on_loading_finished`. -/
def load_video_finished_handler : PlayerUi → ℕ → ℕ → PlayerUi :=
  on_loading_finished_preserve_position

/-- The handler `_seek_to_frame` (line 574) connects on a seek-triggered
reload: also `_on_loading_finished_preserve_position`. -/
def seek_finished_handler : PlayerUi → ℕ → ℕ → PlayerUi :=
  on_loading_finished_preserve_position

/-- A UI state mid-playback: 40 frames known, slider and label at 7. -/
def uiMid : PlayerUi := ⟨40, 30, 7, 39, 7, 39⟩

/-- C3 counterexample: on a first-open load, the handler that
`load_video` connects to the loading-finished notification leaves a
mid-playback slider position 7 unchanged instead of resetting it to 0;
the resetting handler `on_loading_finished` would reset it, but is the
one that is never connected. -/
theorem load_video_reset_counterexample :
    (load_video_finished_handler uiMid 50 30).slider_value = 7 ∧
    (load_video_finished_handler uiMid 50 30).slider_value ≠ 0 ∧
    (load_video_finished_handler uiMid 50 30).current_display = 7 ∧
    (on_loading_finished uiMid 50 30).slider_value = 0 := by
  refine ⟨rfl, ?_, rfl, rfl⟩
  decide

/-- C3 (amended): both the first-open load and the seek-triggered
reload connect the loading-finished notification to the same
position-preserving handler, which updates the total-frames count, the
fps, the slider maximum and the total-frames label but leaves the
slider position and the displayed frame index unchanged; the resetting
handler `on_loading_finished` exists in the source but is never
connected, so a first-open load does not reset the displayed index to 0
through this notification. -/
theorem loading_finished_handler_behavior :
    load_video_finished_handler = on_loading_finished_preserve_position ∧
    seek_finished_handler = on_loading_finished_preserve_position ∧
    (∀ (s : PlayerUi) (tf f : ℕ),
      (on_loading_finished_preserve_position s tf f).slider_value = s.slider_value ∧
      (on_loading_finished_preserve_position s tf f).current_display = s.current_display ∧
      (on_loading_finished_preserve_position s tf f).total_frames = tf ∧
      (on_loading_finished_preserve_position s tf f).fps = f ∧
      (on_loading_finished_preserve_position s tf f).slider_max = tf - 1 ∧
      (on_loading_finished_preserve_position s tf f).total_display = tf - 1) ∧
    (∀ (s : PlayerUi) (tf f : ℕ),
      (on_loading_finished s tf f).slider_value = 0 ∧
      (on_loading_finished s tf f).current_display = 0) :=
  ⟨rfl, rfl, fun _ _ _ => ⟨rfl, rfl, rfl, rfl, rfl, rfl⟩, fun _ _ _ => ⟨rfl, rfl⟩⟩

/-- The compositor state of `OverlayManager`: the two viewer refs, the
blend mode, the opacity, the `is_active` flag, and whether
`update_overlay` is currently connected to the main viewer's
frame-updated signal. -/
structure OverlayManager where
  main_player : Option ℕ
  overlay_player : Option ℕ
  blend_mode : String
  opacity : ℚ
  is_active : Bool
  connected : Bool

/-- `OverlayManager.activate` (lines 732-736): sets `is_active = True`
unconditionally, and only then, if both refs are set, connects the
frame-updated subscription. -/
def activate (m : OverlayManager) : OverlayManager :=
  let m1 := { m with is_active := true }
  if m1.main_player.isSome && m1.overlay_player.isSome then
    { m1 with connected := true }
  else m1

/-- `OverlayManager.set_opacity` (lines 729-730): clamps to [0,1]. -/
def set_opacity (m : OverlayManager) (opacity : ℚ) : OverlayManager :=
  { m with opacity := max 0 (min 1 opacity) }

/-- A compositor with only the overlay ref set. -/
def halfSet : OverlayManager := ⟨none, some 1, "Normal", 1/2, false, false⟩

/-- C4 counterexample: activating a compositor whose main ref is unset
does make it active (`is_active` becomes true) even though no
subscription is made — the activation is partial, not rejected. -/
theorem activate_missing_ref_counterexample :
    halfSet.main_player = none ∧
    (activate halfSet).is_active = true ∧
    (activate halfSet).connected = false := by
  refine ⟨rfl, ?_, ?_⟩ <;> decide

/-- C4 (amended): with the main or the overlay ref unset, `activate()`
makes no subscription to frame-update notifications, but it still sets
`is_active` to true: the flag assignment precedes the refs check, so a
partial activation does occur. -/
theorem activate_partial_activation (m : OverlayManager)
    (h : m.main_player = none ∨ m.overlay_player = none) :
    (activate m).is_active = true ∧ (activate m).connected = m.connected := by
  rcases h with h | h <;> simp [activate, h]

/-- C4 witness: the concrete compositor with a missing main ref. -/
theorem activate_partial_activation_witness :
    (halfSet.main_player = none ∨ halfSet.overlay_player = none) ∧
    (activate halfSet).is_active = true ∧ (activate halfSet).connected = halfSet.connected :=
  ⟨Or.inl rfl, activate_partial_activation halfSet (Or.inl rfl)⟩

/-- `frame.min()` over the flattened values of a nonempty array
(`display_frame`, line 433). -/
def frameMin : List ℚ → ℚ
  | [] => 0
  | x :: xs => xs.foldl min x

/-- `frame.max()` over the flattened values of a nonempty array. -/
def frameMax : List ℚ → ℚ
  | [] => 0
  | x :: xs => xs.foldl max x

/-- One element of `(frame - frame.min()) / (frame.max() - frame.min())
* 255` followed by `astype(np.uint8)` (lines 434-435). -/
def normElem (mn mx x : ℚ) : ℕ := toU8 ((x - mn) / (mx - mn) * 255)

/-- The non-8-bit branch of `VideoPlayerWindow.display_frame`
(lines 432-437): when max and min differ, rescale every value by
`(x - min) / (max - min) * 255`; a constant frame becomes
`np.zeros_like(frame)`. -/
def normalize_frame (vals : List ℚ) : List ℕ :=
  if frameMax vals ≠ frameMin vals then
    vals.map (normElem (frameMin vals) (frameMax vals))
  else
    vals.map (fun _ => 0)

/-- `cv2.cvtColor(frame, cv2.COLOR_GRAY2RGB)` (lines 440-443 and
`_load_tiff` lines 103-104): every gray value is replicated into the
three channels. -/
def gray_to_rgb (vals : List ℕ) : List (ℕ × ℕ × ℕ) :=
  vals.map (fun v => (v, v, v))

/-- `cv2.cvtColor(frame, cv2.COLOR_RGBA2RGB)` (lines 444-445 and
`_load_tiff` lines 105-106): the alpha channel is dropped, the RGB
channels are taken as they are (no alpha blending). -/
def rgba_to_rgb (px : List (ℕ × ℕ × ℕ × ℕ)) : List (ℕ × ℕ × ℕ) :=
  px.map (fun p => (p.1, p.2.1, p.2.2.1))

/-- C9: a non-8-bit frame is linearly rescaled per frame: when the
frame is not constant, the rescale maps its minimum to 0 and its
maximum to 255 (and is applied to every value); a constant frame maps
to all zeros; grayscale values are channel-replicated to RGB; a
4-channel pixel is reduced to RGB by dropping alpha with no blending. -/
theorem display_frame_normalization :
    (∀ vals : List ℚ, frameMax vals ≠ frameMin vals →
      normalize_frame vals = vals.map (normElem (frameMin vals) (frameMax vals)) ∧
      normElem (frameMin vals) (frameMax vals) (frameMin vals) = 0 ∧
      normElem (frameMin vals) (frameMax vals) (frameMax vals) = 255) ∧
    (∀ vals : List ℚ, frameMax vals = frameMin vals →
      normalize_frame vals = vals.map (fun _ => 0)) ∧
    (∀ vals : List ℕ, gray_to_rgb vals = vals.map (fun v => (v, v, v))) ∧
    (∀ r g b a : ℕ, rgba_to_rgb [(r, g, b, a)] = [(r, g, b)]) := by
  refine ⟨fun vals hne => ⟨?_, ?_, ?_⟩, fun vals heq => ?_, fun vals => rfl,
    fun r g b a => rfl⟩
  · unfold normalize_frame
    rw [if_pos hne]
  · unfold normElem
    rw [sub_self, zero_div, zero_mul]
    exact toU8_eq 0 0 (by norm_num) (by norm_num)
  · unfold normElem
    rw [div_self (sub_ne_zero_of_ne hne)]
    rw [one_mul]
    exact toU8_eq 255 255 (by norm_num) (by norm_num)
  · unfold normalize_frame
    rw [if_neg (by simp [heq])]

/-- C9 witness: the two-element frame [0, 2] is rescaled with its
minimum mapping to 0 and its maximum to 255; the constant frame [3, 3]
maps to zeros; a gray frame and an RGBA pixel convert as stated. -/
theorem display_frame_normalization_witness :
    (normalize_frame [(0 : ℚ), 2] =
        [(0 : ℚ), 2].map (normElem (frameMin [(0 : ℚ), 2]) (frameMax [(0 : ℚ), 2])) ∧
      normElem (frameMin [(0 : ℚ), 2]) (frameMax [(0 : ℚ), 2]) (frameMin [(0 : ℚ), 2]) = 0 ∧
      normElem (frameMin [(0 : ℚ), 2]) (frameMax [(0 : ℚ), 2]) (frameMax [(0 : ℚ), 2]) = 255) ∧
    normalize_frame [(3 : ℚ), 3] = [(3 : ℚ), 3].map (fun _ => 0) ∧
    gray_to_rgb [7] = [(7, 7, 7)] ∧
    rgba_to_rgb [(10, 20, 30, 40)] = [(10, 20, 30)] :=
  ⟨display_frame_normalization.1 [(0 : ℚ), 2] (by decide),
    display_frame_normalization.2.1 [(3 : ℚ), 3] (by decide),
    display_frame_normalization.2.2.1 [7],
    display_frame_normalization.2.2.2 10 20 30 40⟩

/-- `SyncGroup` (lines 671-695): an insertion-ordered list of viewer
references (viewers stand for their numeric ids) and an optional
master. -/
structure SyncGroup where
  players : List ℕ
  master : Option ℕ

/-- `SyncGroup.__init__`: empty group, no master. -/
def SyncGroup.init : SyncGroup := ⟨[], none⟩

/-- `SyncGroup.set_master` (lines 691-692). -/
def set_master (s : SyncGroup) (p : ℕ) : SyncGroup := { s with master := some p }

/-- `SyncGroup.add_player` (lines 676-679): append, then make the new
player master if there is none. -/
def add_player (s : SyncGroup) (p : ℕ) : SyncGroup :=
  let s1 := { s with players := s.players ++ [p] }
  if s1.master = none then set_master s1 p else s1

/-- The member list after `SyncGroup.remove_player`'s first statement
(lines 682-683): `list.remove` removes the first occurrence when the
player is present, otherwise the list is unchanged. -/
def removedPlayers (s : SyncGroup) (p : ℕ) : List ℕ :=
  if p ∈ s.players then s.players.erase p else s.players

/-- `SyncGroup.remove_player` (lines 681-689): after the removal, if the
removed player was the master and players remain, the first remaining
member (insertion order) becomes master; otherwise, if no players
remain, the master is cleared. -/
def remove_player (s : SyncGroup) (p : ℕ) : SyncGroup :=
  if some p = s.master ∧ removedPlayers s p ≠ [] then
    { s with players := removedPlayers s p, master := (removedPlayers s p).head? }
  else if removedPlayers s p = [] then
    { s with players := removedPlayers s p, master := none }
  else
    { s with players := removedPlayers s p }

/-- A membership operation on a sync group. -/
inductive SyncOp where
  | add (p : ℕ)
  | remove (p : ℕ)

def applyOp (s : SyncGroup) : SyncOp → SyncGroup
  | .add p => add_player s p
  | .remove p => remove_player s p

def applyOps (s : SyncGroup) (ops : List SyncOp) : SyncGroup := ops.foldl applyOp s

/-- The inductive invariant of the group: an empty group has no master,
and a non-empty group's master is one of its members. -/
def StrongSyncInv (s : SyncGroup) : Prop :=
  (s.players = [] → s.master = none) ∧
  (s.players ≠ [] → ∃ m, s.master = some m ∧ m ∈ s.players)

theorem strongInv_add (s : SyncGroup) (p : ℕ) (h : StrongSyncInv s) :
    StrongSyncInv (add_player s p) := by
  obtain ⟨h1, h2⟩ := h
  unfold add_player set_master
  by_cases hm : s.master = none
  · rw [if_pos hm]
    constructor
    · intro hc
      exact absurd hc (by simp)
    · intro _
      exact ⟨p, rfl, by simp⟩
  · rw [if_neg hm]
    constructor
    · intro hc
      exact absurd hc (by simp)
    · intro _
      rcases Option.ne_none_iff_exists'.mp hm with ⟨m, hmm⟩
      have hps : s.players ≠ [] := fun hnil => hm (h1 hnil)
      obtain ⟨m', hm'', hmem⟩ := h2 hps
      have hem : m' = m := by
        rw [hmm] at hm''
        exact (Option.some.inj hm'').symm
      refine ⟨m, hmm, ?_⟩
      subst hem
      exact List.mem_append_left _ hmem

theorem strongInv_remove (s : SyncGroup) (p : ℕ) (h : StrongSyncInv s) :
    StrongSyncInv (remove_player s p) := by
  obtain ⟨h1, h2⟩ := h
  unfold remove_player
  by_cases hc1 : some p = s.master ∧ removedPlayers s p ≠ []
  · rw [if_pos hc1]
    constructor
    · intro hc
      exact absurd hc hc1.2
    · intro _
      cases hl : removedPlayers s p with
      | nil => exact absurd hl hc1.2
      | cons a t =>
        exact ⟨a, rfl, List.mem_cons_self a t⟩
  · rw [if_neg hc1]
    by_cases hc2 : removedPlayers s p = []
    · rw [if_pos hc2]
      exact ⟨fun _ => rfl, fun hne => absurd hc2 hne⟩
    · rw [if_neg hc2]
      constructor
      · intro hc
        exact absurd hc hc2
      · intro _
        have hps : s.players ≠ [] := by
          intro hnil
          apply hc2
          unfold removedPlayers
          rw [hnil]
          simp
        obtain ⟨m, hm, hmem⟩ := h2 hps
        have hpm : p ≠ m := by
          intro he
          subst he
          exact hc1 ⟨hm.symm, hc2⟩
        refine ⟨m, hm, ?_⟩
        show m ∈ removedPlayers s p
        unfold removedPlayers
        by_cases hin : p ∈ s.players
        · rw [if_pos hin]
          exact (List.mem_erase_of_ne (Ne.symm hpm)).mpr hmem
        · rw [if_neg hin]
          exact hmem

theorem strongInv_applyOps (ops : List SyncOp) (s : SyncGroup)
    (h : StrongSyncInv s) : StrongSyncInv (applyOps s ops) := by
  induction ops generalizing s with
  | nil => exact h
  | cons o rest ih =>
    cases o with
    | add p => exact ih (add_player s p) (strongInv_add s p h)
    | remove p => exact ih (remove_player s p) (strongInv_remove s p h)

/-- C5: removing the master from a group of at least two members makes
the earliest-added remaining member (the head of the list after the
removal) the new master; removing the last member clears the master;
after any sequence of add/remove operations starting from the empty
group, the master is a member whenever the member list is non-empty;
and adding a player to a masterless group makes it the master. -/
theorem sync_master_claims :
    (∀ (s : SyncGroup) (m : ℕ), s.master = some m → m ∈ s.players →
      2 ≤ s.players.length →
      (remove_player s m).master = (s.players.erase m).head?) ∧
    (∀ (s : SyncGroup) (p : ℕ), s.players = [p] →
      (remove_player s p).master = none) ∧
    (∀ ops : List SyncOp, (applyOps SyncGroup.init ops).players ≠ [] →
      ∃ m, (applyOps SyncGroup.init ops).master = some m ∧
        m ∈ (applyOps SyncGroup.init ops).players) ∧
    (∀ (s : SyncGroup) (p : ℕ), s.master = none →
      (add_player s p).master = some p) := by
  refine ⟨fun s m hm hmem hlen => ?_, fun s p hsp => ?_, fun ops => ?_, fun s p hm => ?_⟩
  · have hps : removedPlayers s m = s.players.erase m := by
      unfold removedPlayers
      rw [if_pos hmem]
    have hne : removedPlayers s m ≠ [] := by
      rw [hps]
      intro hnil
      have hle := List.length_erase_of_mem hmem
      rw [hnil] at hle
      simp only [List.length_nil] at hle
      omega
    unfold remove_player
    rw [if_pos ⟨hm.symm, hne⟩]
    show (removedPlayers s m).head? = (s.players.erase m).head?
    rw [hps]
  · have hps : removedPlayers s p = [] := by
      unfold removedPlayers
      rw [hsp, if_pos (List.mem_singleton_self p)]
      exact List.erase_cons_head p []
    unfold remove_player
    rw [if_neg (fun hc => hc.2 hps), if_pos hps]
  · exact (strongInv_applyOps ops SyncGroup.init
      ⟨fun _ => rfl, fun hc => absurd rfl hc⟩).2
  · unfold add_player set_master
    rw [if_pos (by exact hm)]

/-- C5 witness: concrete instances — removing master 1 from the group
[1, 2] promotes 2; removing the only member 7 clears the master; the
singleton op sequence [add 3] yields a group whose master 3 is a
member; adding 5 to a masterless group makes 5 the master. -/
theorem sync_master_claims_witness :
    (remove_player ⟨[1, 2], some 1⟩ 1).master = (([1, 2] : List ℕ).erase 1).head? ∧
    (remove_player ⟨[7], some 7⟩ 7).master = none ∧
    (∃ m, (applyOps SyncGroup.init [SyncOp.add 3]).master = some m ∧
      m ∈ (applyOps SyncGroup.init [SyncOp.add 3]).players) ∧
    (add_player ⟨[], none⟩ 5).master = some 5 :=
  ⟨sync_master_claims.1 ⟨[1, 2], some 1⟩ 1 rfl (by decide) (by decide),
    sync_master_claims.2.1 ⟨[7], some 7⟩ 7 rfl,
    sync_master_claims.2.2.1 [SyncOp.add 3] (by decide),
    sync_master_claims.2.2.2 ⟨[], none⟩ 5 rfl⟩

/-- Program counter of the producer loop of
`VideoLoaderThread._load_video` (lines 63-83), which runs on the
`QThread` itself: at the `while not self.stopped` check; after a frame
was read; past the `if not self.stopped` guard in front of the queue
push; or exited (the thread's `run` has returned). -/
inductive VPc where
  | checkLoop
  | afterRead
  | guardPassed
  | done
deriving DecidableEq

/-- Interleaving state for the video variant: the `stopped` flag, the
producer's program counter, whether `stop()` was called and whether it
has returned, and whether any push into the frame queue happened after
`stop()` returned. -/
structure VideoSt where
  stopped : Bool
  pc : VPc
  stopCalled : Bool
  stopReturned : Bool
  pushAfterStop : Bool
deriving DecidableEq

/-- Start state: loader running, nothing stopped. -/
def vInit : VideoSt := ⟨false, VPc.checkLoop, false, false, false⟩

/-- One interleaved step of the video loader or its caller.  The
producer transitions follow `_load_video`: the loop check reads
`stopped`; the guard `if not self.stopped` is evaluated before the
push; the push then happens unconditionally.  `stop()`
(lines 127-129) sets the flag and then `self.wait()` blocks until the
`QThread`'s `run` has exited, i.e. until the producer is at `done`. -/
inductive VStep : VideoSt → VideoSt → Prop where
  | read (s : VideoSt) : s.pc = VPc.checkLoop → s.stopped = false →
      VStep s { s with pc := VPc.afterRead }
  | exitLoop (s : VideoSt) : s.pc = VPc.checkLoop → s.stopped = true →
      VStep s { s with pc := VPc.done }
  | guardPass (s : VideoSt) : s.pc = VPc.afterRead → s.stopped = false →
      VStep s { s with pc := VPc.guardPassed }
  | guardFail (s : VideoSt) : s.pc = VPc.afterRead → s.stopped = true →
      VStep s { s with pc := VPc.checkLoop }
  | push (s : VideoSt) : s.pc = VPc.guardPassed →
      VStep s { s with pc := VPc.checkLoop, pushAfterStop := s.pushAfterStop || s.stopReturned }
  | stopCall (s : VideoSt) : s.stopCalled = false →
      VStep s { s with stopped := true, stopCalled := true }
  | stopRet (s : VideoSt) : s.stopCalled = true → s.stopReturned = false →
      s.pc = VPc.done → VStep s { s with stopReturned := true }

/-- States reachable from the start state. -/
inductive VReach : VideoSt → Prop where
  | init : VReach vInit
  | step {s t : VideoSt} : VReach s → VStep s t → VReach t

/-- C6 (amended, video variant): in every reachable interleaving of the
sequential-codec loader with its caller, once `stop()` has returned the
producer has exited, and no push into the frame queue ever happens
after `stop()` returns — `stop()` joins the very thread that performs
the pushes. -/
theorem video_stop_no_push_after (s : VideoSt) (h : VReach s) :
    (s.stopReturned = true → s.pc = VPc.done) ∧ s.pushAfterStop = false := by
  induction h with
  | init => exact ⟨fun hc => absurd hc (by decide), rfl⟩
  | @step s0 t0 hs hstep ih =>
    obtain ⟨ih1, ih2⟩ := ih
    cases hstep with
    | read hpc hst =>
      exact ⟨fun hr => absurd ((ih1 hr).symm.trans hpc) (by decide), ih2⟩
    | exitLoop hpc hst =>
      exact ⟨fun _ => rfl, ih2⟩
    | guardPass hpc hst =>
      exact ⟨fun hr => absurd ((ih1 hr).symm.trans hpc) (by decide), ih2⟩
    | guardFail hpc hst =>
      exact ⟨fun hr => absurd ((ih1 hr).symm.trans hpc) (by decide), ih2⟩
    | push hpc =>
      have hsr : s0.stopReturned = false := by
        cases hsr2 : s0.stopReturned with
        | false => rfl
        | true => exact absurd ((ih1 hsr2).symm.trans hpc) (by decide)
      refine ⟨fun hr => absurd (hsr.symm.trans hr) (by decide), ?_⟩
      show (s0.pushAfterStop || s0.stopReturned) = false
      rw [ih2, hsr]
      rfl
    | stopCall hsc =>
      exact ⟨ih1, ih2⟩
    | stopRet hsc hsr hpc =>
      exact ⟨fun _ => hpc, ih2⟩

/-- C6 witness: the start state, reachable by construction, satisfies
the invariant. -/
theorem video_stop_no_push_after_witness :
    (vInit.stopReturned = true → vInit.pc = VPc.done) ∧ vInit.pushAfterStop = false :=
  video_stop_no_push_after vInit VReach.init

/-- Program counter of the `QThread` in the TIFF variant: `run`
(`_load_tiff`, lines 85-117) opens the file, emits the notification,
spawns the `load_frames` daemon thread and returns, so it is either
still running or finished. -/
inductive QPc where
  | running
  | finished
deriving DecidableEq

/-- Program counter of the `load_frames` daemon thread
(lines 93-114): not yet spawned; at the loop's stopped check; after
reading a page; past the `if not self.stopped` guard in front of the
push; or exited. -/
inductive DPc where
  | unstarted
  | check
  | afterRead
  | guardPassed
  | done
deriving DecidableEq

/-- Interleaving state for the TIFF variant: the `stopped` flag, the
two program counters, the stop-call bookkeeping, and whether any push
happened after `stop()` returned. -/
structure TiffSt where
  stopped : Bool
  qpc : QPc
  dpc : DPc
  stopCalled : Bool
  stopReturned : Bool
  pushAfterStop : Bool
deriving DecidableEq

/-- Start state of the TIFF variant. -/
def tInit : TiffSt := ⟨false, QPc.running, DPc.unstarted, false, false, false⟩

/-- One interleaved step of the TIFF loader.  `run` spawns the daemon
and immediately finishes; the daemon loops with the same stopped-check
and push-guard as the video loop; `stop()` sets the flag and
`self.wait()` waits only for the `QThread` (`qpc = finished`) — it does
not join the daemon thread, which `threading.Thread(...,
daemon=True).start()` left running independently. -/
inductive TStep : TiffSt → TiffSt → Prop where
  | spawn (s : TiffSt) : s.qpc = QPc.running → s.dpc = DPc.unstarted →
      TStep s { s with qpc := QPc.finished, dpc := DPc.check }
  | dRead (s : TiffSt) : s.dpc = DPc.check → s.stopped = false →
      TStep s { s with dpc := DPc.afterRead }
  | dExit (s : TiffSt) : s.dpc = DPc.check → s.stopped = true →
      TStep s { s with dpc := DPc.done }
  | dGuardPass (s : TiffSt) : s.dpc = DPc.afterRead → s.stopped = false →
      TStep s { s with dpc := DPc.guardPassed }
  | dGuardFail (s : TiffSt) : s.dpc = DPc.afterRead → s.stopped = true →
      TStep s { s with dpc := DPc.check }
  | dPush (s : TiffSt) : s.dpc = DPc.guardPassed →
      TStep s { s with dpc := DPc.check, pushAfterStop := s.pushAfterStop || s.stopReturned }
  | stopCall (s : TiffSt) : s.stopCalled = false →
      TStep s { s with stopped := true, stopCalled := true }
  | stopRet (s : TiffSt) : s.stopCalled = true → s.stopReturned = false →
      s.qpc = QPc.finished → TStep s { s with stopReturned := true }

/-- States reachable from the TIFF start state. -/
inductive TReach : TiffSt → Prop where
  | init : TReach tInit
  | step {s t : TiffSt} : TReach s → TStep s t → TReach t

/-- The state reached after the daemon pushed a frame although `stop()`
had already returned. -/
def tBad : TiffSt := ⟨true, QPc.finished, DPc.check, true, true, true⟩

/-- C6 counterexample (TIFF variant): the state in which a frame was
pushed after `stop()` returned is reachable — `run` spawns the daemon
and finishes; the daemon reads a page and passes the `if not
self.stopped` guard; `stop()` is called, sets the flag and returns at
once because the `QThread` is already finished (it never joins the
daemon); the daemon then performs the pending push. -/
theorem tiff_push_after_stop_counterexample :
    TReach tBad ∧ tBad.stopReturned = true ∧ tBad.pushAfterStop = true := by
  refine ⟨?_, rfl, rfl⟩
  have h1 := TReach.step TReach.init (TStep.spawn tInit rfl rfl)
  have h2 := TReach.step h1 (TStep.dRead _ rfl rfl)
  have h3 := TReach.step h2 (TStep.dGuardPass _ rfl rfl)
  have h4 := TReach.step h3 (TStep.stopCall _ rfl)
  have h5 := TReach.step h4 (TStep.stopRet _ rfl rfl rfl)
  have h6 := TReach.step h5 (TStep.dPush _ rfl)
  exact h6

end MovUtil
